import Mathlib

/-!
Verification of the signal engine in `Enhanced_technical_strat.py`
(class `Strategy`, method `run`).

Prices and indicator values are modelled as rationals (`ℚ`); a pandas
NaN is modelled as `none : Option ℚ` with the Python comparison
semantics (any comparison against NaN is `False`).  The per-bar loop
body becomes the pure step function `stepBar`, threaded through the
series by `foldSteps`; the surrounding pipeline (empty-table early
return, column normalisation, required-column check, `dropna`, the
`len < 200` short-circuit and the `try/except` around indicator
computation) becomes `runStrategy`, parametric in the indicator
computation so that its failure (`Except.error`) models a raised
exception caught by the `except` block.
-/

namespace AlphaStrat

/-- The six trade actions of the `TradeType` enum. -/
inductive TradeType where
  | long
  | short
  | reverseLong
  | reverseShort
  | close
  | hold
  deriving DecidableEq, Repr

/-- Position side carried by the loop variable `position`
(`None` / `'LONG'` / `'SHORT'` in the Python). -/
inductive Side where
  | flat
  | long
  | short
  deriving DecidableEq, Repr

/-- A raw input row: the five required fields, each possibly NaN
(`opn` stands for the `open` column). -/
structure RawBar where
  opn : Option ℚ
  high : Option ℚ
  low : Option ℚ
  close : Option ℚ
  volume : Option ℚ
  deriving DecidableEq, Repr

/-- A cleaned bar (all required fields present). -/
structure Bar where
  opn : ℚ
  high : ℚ
  low : ℚ
  close : ℚ
  volume : ℚ
  deriving DecidableEq, Repr

/-- An indicator-augmented row as consumed by the strategy loop:
price fields plus the derived indicator columns, each possibly NaN. -/
structure Row where
  high : ℚ
  low : ℚ
  close : ℚ
  ema50 : Option ℚ
  ema200 : Option ℚ
  vwap : Option ℚ
  bbWidth : Option ℚ
  bbLower : Option ℚ
  adx : Option ℚ
  plusDi : Option ℚ
  minusDi : Option ℚ
  rsi : Option ℚ
  atr : Option ℚ
  deriving DecidableEq, Repr

/-- The mutable loop state: `position`, `entry_price`, `sl`, `tp`, `tsl`. -/
structure PosState where
  position : Side
  entryPrice : Option ℚ
  sl : Option ℚ
  tp : Option ℚ
  tsl : Option ℚ
  deriving DecidableEq, Repr

/-- The initial loop state: flat, all levels NaN. -/
def initState : PosState := ⟨Side.flat, none, none, none, none⟩

/-- The decision columns written for one bar: `trade_type`, `SL`, `TP`, `TSL`. -/
structure OutRow where
  tradeType : TradeType
  sl : Option ℚ
  tp : Option ℚ
  tsl : Option ℚ
  deriving DecidableEq, Repr

/-- The default stamped output row: `HOLD` with NaN levels. -/
def holdOut : OutRow := ⟨TradeType.hold, none, none, none⟩

/-- Strategy parameters (`atr_mult_sl`, `atr_mult_tp`, `min_bb_width`,
`adx_threshold`, `rsi_long_entry`, `rsi_short_entry`, `allow_reversals`). -/
structure Params where
  atrMultSl : ℚ
  atrMultTp : ℚ
  minBbWidth : ℚ
  adxThreshold : ℚ
  rsiLongEntry : ℚ
  rsiShortEntry : ℚ
  allowReversals : Bool
  deriving DecidableEq, Repr

/-- The values hard-coded in `Strategy.run`: 2.5, 3.0, 0.015, 28, 55, 45,
`allow_reversals = False`. -/
def defaultParams : Params :=
  { atrMultSl := 5/2
    atrMultTp := 3
    minBbWidth := 3/200
    adxThreshold := 28
    rsiLongEntry := 55
    rsiShortEntry := 45
    allowReversals := false }

/-- `x <= v` with Python NaN semantics: comparison against NaN is false. -/
def oLe (x : ℚ) (b : Option ℚ) : Bool :=
  match b with
  | some v => decide (x ≤ v)
  | none => false

/-- `x >= v` with Python NaN semantics: comparison against NaN is false. -/
def oGe (x : ℚ) (b : Option ℚ) : Bool :=
  match b with
  | some v => decide (v ≤ x)
  | none => false

/-- `if atr == 0: atr = 0.0001` — the zero-ATR epsilon substitution. -/
def effAtr (a : ℚ) : ℚ := if a = 0 then 1/10000 else a

/-- The in-loop NaN re-check over the essential indicator columns. -/
def rowOk (r : Row) : Bool :=
  r.ema50.isSome && r.ema200.isSome && r.vwap.isSome && r.bbWidth.isSome &&
  r.adx.isSome && r.plusDi.isSome && r.minusDi.isSome && r.rsi.isSome &&
  r.atr.isSome

/-- The long entry signal (`long_signal` in the source). -/
def longSignal (p : Params) (r : Row) : Bool :=
  decide (r.ema200.getD 0 < r.ema50.getD 0) &&
  decide (r.vwap.getD 0 < r.close) &&
  decide (p.minBbWidth < r.bbWidth.getD 0) &&
  decide (p.adxThreshold < r.adx.getD 0) &&
  decide (r.minusDi.getD 0 < r.plusDi.getD 0) &&
  decide (p.rsiLongEntry ≤ r.rsi.getD 0)

/-- The short entry signal (`short_signal` in the source). -/
def shortSignal (p : Params) (r : Row) : Bool :=
  decide (r.ema50.getD 0 < r.ema200.getD 0) &&
  decide (r.close < r.vwap.getD 0) &&
  decide (p.minBbWidth < r.bbWidth.getD 0) &&
  decide (p.adxThreshold < r.adx.getD 0) &&
  decide (r.plusDi.getD 0 < r.minusDi.getD 0) &&
  decide (r.rsi.getD 0 ≤ p.rsiShortEntry)

/-- Exit evaluation for a long position, in the source's order:
trailing stop, then fixed stop-loss, then take-profit (low/high extremes),
then the EMA trend flip. -/
def exitLong (r : Row) (st : PosState) : Bool :=
  oLe r.low st.tsl || oLe r.low st.sl || oGe r.high st.tp ||
  decide (r.ema50.getD 0 < r.ema200.getD 0)

/-- Exit evaluation for a short position, in the source's order. -/
def exitShort (r : Row) (st : PosState) : Bool :=
  oGe r.high st.tsl || oGe r.high st.sl || oLe r.low st.tp ||
  decide (r.ema200.getD 0 < r.ema50.getD 0)

/-- `if pd.isna(tsl) or potential_tsl > tsl: tsl = potential_tsl`
for a long position. -/
def ratchetLong (tsl : Option ℚ) (cand : ℚ) : Option ℚ :=
  match tsl with
  | none => some cand
  | some t => if t < cand then some cand else some t

/-- `if pd.isna(tsl) or potential_tsl < tsl: tsl = potential_tsl`
for a short position. -/
def ratchetShort (tsl : Option ℚ) (cand : ℚ) : Option ℚ :=
  match tsl with
  | none => some cand
  | some t => if cand < t then some cand else some t

/-- One iteration of the strategy loop of `Strategy.run`
(`Enhanced_technical_strat.py` lines 112-254): NaN re-check, exit
evaluation with priority order, trailing-stop ratchet, entry / reversal
evaluation, and the final level recording.  Returns the updated loop
state and the row's output columns. -/
def stepBar (p : Params) (st : PosState) (r : Row) : PosState × OutRow :=
  if rowOk r then
    let price := r.close
    let a := effAtr (r.atr.getD 0)
    match st.position with
    | Side.long =>
      if exitLong r st then
        (initState, ⟨TradeType.close, st.sl, st.tp, st.tsl⟩)
      else
        let st1 : PosState := { st with tsl := ratchetLong st.tsl (price - a * p.atrMultSl) }
        if p.allowReversals && shortSignal p r then
          let sl := price + a * p.atrMultSl
          let tp := price - a * p.atrMultTp
          (⟨Side.short, some price, some sl, some tp, some sl⟩,
           ⟨TradeType.reverseShort, some sl, some tp, some sl⟩)
        else
          (st1, ⟨TradeType.hold, st1.sl, st1.tp, st1.tsl⟩)
    | Side.short =>
      if exitShort r st then
        (initState, ⟨TradeType.close, st.sl, st.tp, st.tsl⟩)
      else
        let st1 : PosState := { st with tsl := ratchetShort st.tsl (price + a * p.atrMultSl) }
        if p.allowReversals && longSignal p r then
          let sl := price - a * p.atrMultSl
          let tp := price + a * p.atrMultTp
          (⟨Side.long, some price, some sl, some tp, some sl⟩,
           ⟨TradeType.reverseLong, some sl, some tp, some sl⟩)
        else
          (st1, ⟨TradeType.hold, st1.sl, st1.tp, st1.tsl⟩)
    | Side.flat =>
      if longSignal p r then
        let sl := price - a * p.atrMultSl
        let tp := price + a * p.atrMultTp
        (⟨Side.long, some price, some sl, some tp, some sl⟩,
         ⟨TradeType.long, some sl, some tp, some sl⟩)
      else if shortSignal p r then
        let sl := price + a * p.atrMultSl
        let tp := price - a * p.atrMultTp
        (⟨Side.short, some price, some sl, some tp, some sl⟩,
         ⟨TradeType.short, some sl, some tp, some sl⟩)
      else
        (st, ⟨TradeType.hold, st.sl, st.tp, st.tsl⟩)
  else
    (st, ⟨TradeType.hold, st.sl, st.tp, st.tsl⟩)

/-- The strategy loop threaded over the remaining rows. -/
def foldSteps (p : Params) : PosState → List Row → List OutRow
  | _, [] => []
  | st, r :: rs =>
    let s := stepBar p st r
    s.2 :: foldSteps p s.1 rs

/-- `first_valid_index` test: the first row where
`ema_200, bb_lower, rsi, atr, adx` are all defined. -/
def validStart (r : Row) : Bool :=
  r.ema200.isSome && r.bbLower.isSome && r.rsi.isSome && r.atr.isSome &&
  r.adx.isSome

/-- The strategy loop over the whole series: rows before
`first_valid_index` keep the default `HOLD` / NaN stamping; from the
first valid row onward the loop runs with the initial flat state.
If no valid start exists every row keeps the default stamping. -/
def runLoop (p : Params) : List Row → List OutRow
  | [] => []
  | r :: rs =>
    if validStart r then foldSteps p initState (r :: rs)
    else holdOut :: runLoop p rs

/-- An input table: column names plus raw rows. -/
structure InputTable where
  cols : List String
  rows : List RawBar

/-- The explicit `rename` dictionary applied to column names. -/
def renameCol (s : String) : String :=
  if s = "Datetime" then "datetime"
  else if s = "Open" then "open"
  else if s = "High" then "high"
  else if s = "Low" then "low"
  else if s = "Close" then "close"
  else if s = "Volume" then "volume"
  else s

/-- ASCII lower-casing of a column name, character by character
(structural form of `str.lower()`). -/
def toLowerStr (s : String) : String := String.mk (s.data.map Char.toLower)

/-- Column normalisation: the rename dictionary, then lower-casing. -/
def normCols (cs : List String) : List String :=
  (cs.map renameCol).map toLowerStr

/-- The five required columns, in the order they are checked. -/
def requiredCols : List String := ["open", "high", "low", "close", "volume"]

/-- The required-column check: raises `KeyError` on the first missing
column, in `requiredCols` order. -/
def checkCols (cols : List String) : Except String Unit :=
  match requiredCols.find? (fun c => !(cols.contains c)) with
  | some c => Except.error ("Missing required column: " ++ c)
  | none => Except.ok ()

/-- `dropna(subset=required_cols)` row predicate. -/
def hasRequired (b : RawBar) : Bool :=
  b.opn.isSome && b.high.isSome && b.low.isSome && b.close.isSome &&
  b.volume.isSome

/-- Convert a raw row that passed `dropna` into a cleaned bar. -/
def toBar (b : RawBar) : Bar :=
  ⟨b.opn.getD 0, b.high.getD 0, b.low.getD 0, b.close.getD 0, b.volume.getD 0⟩

/-- The public entry point `Strategy.run`, parametric in the indicator
computation `ind` (an `Except.error` models an exception raised inside
the `try` block and caught by the `except`).  In order: the
empty-table early return, column normalisation, the required-column
check (the only error that escapes), `dropna`, the `len < 200`
short-circuit returning all-`HOLD`, the guarded indicator computation
falling back to all-`HOLD` on failure, and the strategy loop. -/
def runStrategy (p : Params) (ind : List Bar → Except String (List Row))
    (t : InputTable) : Except String (List OutRow) :=
  if t.rows.isEmpty then Except.ok []
  else
    match checkCols (normCols t.cols) with
    | Except.error e => Except.error e
    | Except.ok _ =>
      let cleaned := t.rows.filter hasRequired
      if cleaned.length < 200 then
        Except.ok (cleaned.map (fun _ => holdOut))
      else
        match ind (cleaned.map toBar) with
        | Except.error _ => Except.ok (cleaned.map (fun _ => holdOut))
        | Except.ok rows => Except.ok (runLoop p rows)

/-! ## Branch lemmas for `stepBar` -/

/-- A bar with an undefined essential indicator leaves the state untouched
and stamps `HOLD` with the carried levels. -/
theorem stepBar_nan (p : Params) (st : PosState) (r : Row) (h : rowOk r = false) :
    stepBar p st r = (st, ⟨TradeType.hold, st.sl, st.tp, st.tsl⟩) := by
  simp [stepBar, h]

/-- Long position, an exit condition holds: stamp `CLOSE` with the pre-exit
levels and reset the state. -/
theorem stepBar_long_exit (p : Params) (st : PosState) (r : Row)
    (hok : rowOk r = true) (hpos : st.position = Side.long)
    (hex : exitLong r st = true) :
    stepBar p st r = (initState, ⟨TradeType.close, st.sl, st.tp, st.tsl⟩) := by
  simp [stepBar, hok, hpos, hex]

/-- Short position, an exit condition holds. -/
theorem stepBar_short_exit (p : Params) (st : PosState) (r : Row)
    (hok : rowOk r = true) (hpos : st.position = Side.short)
    (hex : exitShort r st = true) :
    stepBar p st r = (initState, ⟨TradeType.close, st.sl, st.tp, st.tsl⟩) := by
  simp [stepBar, hok, hpos, hex]

/-- Long position, no exit, no reversal: the trailing stop ratchets and the
bar is stamped `HOLD`. -/
theorem stepBar_long_hold (p : Params) (st : PosState) (r : Row)
    (hok : rowOk r = true) (hpos : st.position = Side.long)
    (hex : exitLong r st = false)
    (hrev : (p.allowReversals && shortSignal p r) = false) :
    stepBar p st r =
      ({ st with tsl := ratchetLong st.tsl (r.close - effAtr (r.atr.getD 0) * p.atrMultSl) },
       ⟨TradeType.hold, st.sl, st.tp,
        ratchetLong st.tsl (r.close - effAtr (r.atr.getD 0) * p.atrMultSl)⟩) := by
  simp [stepBar, hok, hpos, hex, hrev]

/-- Short position, no exit, no reversal. -/
theorem stepBar_short_hold (p : Params) (st : PosState) (r : Row)
    (hok : rowOk r = true) (hpos : st.position = Side.short)
    (hex : exitShort r st = false)
    (hrev : (p.allowReversals && longSignal p r) = false) :
    stepBar p st r =
      ({ st with tsl := ratchetShort st.tsl (r.close + effAtr (r.atr.getD 0) * p.atrMultSl) },
       ⟨TradeType.hold, st.sl, st.tp,
        ratchetShort st.tsl (r.close + effAtr (r.atr.getD 0) * p.atrMultSl)⟩) := by
  simp [stepBar, hok, hpos, hex, hrev]

/-- Long position, no exit, reversal branch taken. -/
theorem stepBar_long_reverse (p : Params) (st : PosState) (r : Row)
    (hok : rowOk r = true) (hpos : st.position = Side.long)
    (hex : exitLong r st = false)
    (hrev : (p.allowReversals && shortSignal p r) = true) :
    stepBar p st r =
      (⟨Side.short, some r.close,
        some (r.close + effAtr (r.atr.getD 0) * p.atrMultSl),
        some (r.close - effAtr (r.atr.getD 0) * p.atrMultTp),
        some (r.close + effAtr (r.atr.getD 0) * p.atrMultSl)⟩,
       ⟨TradeType.reverseShort,
        some (r.close + effAtr (r.atr.getD 0) * p.atrMultSl),
        some (r.close - effAtr (r.atr.getD 0) * p.atrMultTp),
        some (r.close + effAtr (r.atr.getD 0) * p.atrMultSl)⟩) := by
  simp [stepBar, hok, hpos, hex, hrev]

/-- Short position, no exit, reversal branch taken. -/
theorem stepBar_short_reverse (p : Params) (st : PosState) (r : Row)
    (hok : rowOk r = true) (hpos : st.position = Side.short)
    (hex : exitShort r st = false)
    (hrev : (p.allowReversals && longSignal p r) = true) :
    stepBar p st r =
      (⟨Side.long, some r.close,
        some (r.close - effAtr (r.atr.getD 0) * p.atrMultSl),
        some (r.close + effAtr (r.atr.getD 0) * p.atrMultTp),
        some (r.close - effAtr (r.atr.getD 0) * p.atrMultSl)⟩,
       ⟨TradeType.reverseLong,
        some (r.close - effAtr (r.atr.getD 0) * p.atrMultSl),
        some (r.close + effAtr (r.atr.getD 0) * p.atrMultTp),
        some (r.close - effAtr (r.atr.getD 0) * p.atrMultSl)⟩) := by
  simp [stepBar, hok, hpos, hex, hrev]

/-- Flat, the long signal fires: fresh long entry. -/
theorem stepBar_flat_long (p : Params) (st : PosState) (r : Row)
    (hok : rowOk r = true) (hpos : st.position = Side.flat)
    (hsig : longSignal p r = true) :
    stepBar p st r =
      (⟨Side.long, some r.close,
        some (r.close - effAtr (r.atr.getD 0) * p.atrMultSl),
        some (r.close + effAtr (r.atr.getD 0) * p.atrMultTp),
        some (r.close - effAtr (r.atr.getD 0) * p.atrMultSl)⟩,
       ⟨TradeType.long,
        some (r.close - effAtr (r.atr.getD 0) * p.atrMultSl),
        some (r.close + effAtr (r.atr.getD 0) * p.atrMultTp),
        some (r.close - effAtr (r.atr.getD 0) * p.atrMultSl)⟩) := by
  simp [stepBar, hok, hpos, hsig]

/-- Flat, the long signal does not fire but the short signal does:
fresh short entry. -/
theorem stepBar_flat_short (p : Params) (st : PosState) (r : Row)
    (hok : rowOk r = true) (hpos : st.position = Side.flat)
    (hno : longSignal p r = false) (hsig : shortSignal p r = true) :
    stepBar p st r =
      (⟨Side.short, some r.close,
        some (r.close + effAtr (r.atr.getD 0) * p.atrMultSl),
        some (r.close - effAtr (r.atr.getD 0) * p.atrMultTp),
        some (r.close + effAtr (r.atr.getD 0) * p.atrMultSl)⟩,
       ⟨TradeType.short,
        some (r.close + effAtr (r.atr.getD 0) * p.atrMultSl),
        some (r.close - effAtr (r.atr.getD 0) * p.atrMultTp),
        some (r.close + effAtr (r.atr.getD 0) * p.atrMultSl)⟩) := by
  simp [stepBar, hok, hpos, hno, hsig]

/-- Flat, neither signal fires: stamp `HOLD`, state unchanged. -/
theorem stepBar_flat_hold (p : Params) (st : PosState) (r : Row)
    (hok : rowOk r = true) (hpos : st.position = Side.flat)
    (hno : longSignal p r = false) (hns : shortSignal p r = false) :
    stepBar p st r = (st, ⟨TradeType.hold, st.sl, st.tp, st.tsl⟩) := by
  simp [stepBar, hok, hpos, hno, hns]

/-! ## Signal lemmas -/

/-- The two entry signals are mutually exclusive (they demand opposite
EMA relationships). -/
theorem shortSignal_longSignal_false (p : Params) (r : Row)
    (h : shortSignal p r = true) : longSignal p r = false := by
  simp only [shortSignal, Bool.and_eq_true, decide_eq_true_eq] at h
  have hlt : ¬ (r.ema200.getD 0 < r.ema50.getD 0) :=
    not_lt.mpr (le_of_lt h.1.1.1.1.1)
  simp [longSignal, hlt]

/-- A firing long signal forces the short-position trend-flip exit. -/
theorem longSignal_exitShort (p : Params) (st : PosState) (r : Row)
    (h : longSignal p r = true) : exitShort r st = true := by
  simp only [longSignal, Bool.and_eq_true, decide_eq_true_eq] at h
  simp [exitShort, h.1.1.1.1.1]

/-- A firing short signal forces the long-position trend-flip exit. -/
theorem shortSignal_exitLong (p : Params) (st : PosState) (r : Row)
    (h : shortSignal p r = true) : exitLong r st = true := by
  simp only [shortSignal, Bool.and_eq_true, decide_eq_true_eq] at h
  simp [exitLong, h.1.1.1.1.1]

/-! ## Pipeline lemmas -/

/-- `checkCols` errors carry exactly the first missing required column. -/
theorem checkCols_error_spec (cols : List String) (msg : String)
    (h : checkCols cols = Except.error msg) :
    ∃ c ∈ requiredCols, ¬ c ∈ cols ∧ msg = "Missing required column: " ++ c := by
  unfold checkCols at h
  cases hf : requiredCols.find? (fun c => !(cols.contains c)) with
  | none => rw [hf] at h; exact absurd h (by simp)
  | some c =>
    rw [hf] at h
    refine ⟨c, List.mem_of_find?_eq_some hf, ?_, ?_⟩
    · have hp := List.find?_some hf
      simp only [Bool.not_eq_true'] at hp
      simpa using hp
    · cases h; rfl

/-- The ratcheted long trailing stop is always defined. -/
theorem ratchetLong_ne_none (t : Option ℚ) (c : ℚ) : ratchetLong t c ≠ none := by
  cases t with
  | none => simp [ratchetLong]
  | some v => simp only [ratchetLong]; split <;> simp

/-- The ratcheted short trailing stop is always defined. -/
theorem ratchetShort_ne_none (t : Option ℚ) (c : ℚ) : ratchetShort t c ≠ none := by
  cases t with
  | none => simp [ratchetShort]
  | some v => simp only [ratchetShort]; split <;> simp

/-- Position/level invariant of the loop state: the SL/TP/TSL levels are
defined exactly when the position side is not flat. -/
def stInv (st : PosState) : Prop :=
  (st.position = Side.flat → st.sl = none ∧ st.tp = none ∧ st.tsl = none) ∧
  (st.position ≠ Side.flat → st.sl ≠ none ∧ st.tp ≠ none ∧ st.tsl ≠ none)

/-! ## Concrete data used by witnesses and counterexamples -/

/-- An indicator computation that always succeeds with no rows. -/
def indNone : List Bar → Except String (List Row) := fun _ => Except.ok []

/-- An indicator computation that always fails (models a raised exception). -/
def indBoom : List Bar → Except String (List Row) := fun _ => Except.error "boom"

/-- A sample row with all indicators defined and the long signal firing. -/
def rowC2 : Row :=
  ⟨105, 95, 100, some 5, some 1, some 50, some 1, some 0, some 30, some 2,
   some 1, some 60, some 2⟩

/-- A sample open short position. -/
def stShortC2 : PosState := ⟨Side.short, some 100, some 105, some 90, some 104⟩

/-- The default parameters with reversals enabled. -/
def paramsRev : Params := { defaultParams with allowReversals := true }

/-- A sample bar that breaches a long position's trailing stop. -/
def rowExitW : Row :=
  ⟨100, 90, 99, some 5, some 1, some 50, some 1, some 0, some 30, some 2,
   some 1, some 60, some 2⟩

/-- A sample open long position. -/
def stLongW : PosState := ⟨Side.long, some 100, some 95, some 110, some 96⟩

/-- A sample hold bar for a short position: no exit condition fires and the
trailing candidate 98 + 2·2.5 = 103 tightens the stop. -/
def rowTslW : Row :=
  ⟨100, 95, 98, some 1, some 5, some 150, some 1, some 0, some 30, some 1,
   some 2, some 40, some 2⟩

/-- A long-signal bar whose ATR is exactly zero. -/
def rowAtrZero : Row :=
  ⟨105, 95, 100, some 5, some 1, some 50, some 1, some 0, some 30, some 2,
   some 1, some 60, some 0⟩

/-- A sample raw input row with every required field present. -/
def rbW : RawBar := ⟨some 1, some 2, some 1, some 2, some 3⟩

/-- An empty table whose columns lack `volume`. -/
def emptyNoVol : InputTable := ⟨["open", "high", "low", "close"], []⟩

/-- A nonempty table whose columns lack `volume` after normalisation. -/
def tMissW : InputTable := ⟨["Open", "high", "low", "close"], [rbW]⟩

/-- A valid table of exactly 199 cleaned rows. -/
def t199 : InputTable :=
  ⟨["open", "high", "low", "close", "volume"], List.replicate 199 rbW⟩

/-- A valid table of 200 cleaned rows (enough to reach the indicator
computation). -/
def t200 : InputTable :=
  ⟨["open", "high", "low", "close", "volume"], List.replicate 200 rbW⟩

/-! ## Claim theorems -/

/-- C1: while a position is open (and the bar's indicators are defined),
exit conditions are evaluated in the fixed priority order trailing-stop,
fixed stop-loss, take-profit — each tested against the bar's low/high
extremes — then the EMA trend flip; `exitLong` / `exitShort` spell out that
order, every triggered condition leads to the same outcome (so the first
trigger wins), the bar is stamped `CLOSE` exactly when some condition
triggers, the pre-exit SL/TP/TSL are recorded as the row's levels, the
position is cleared to flat with all levels undefined, and entry / reversal
logic is not evaluated on that bar (the result is fully determined before
the signals are consulted). -/
theorem claim_exit_priority (p : Params) (st : PosState) (r : Row)
    (hok : rowOk r = true) :
    (st.position = Side.long →
      ((stepBar p st r).2.tradeType = TradeType.close ↔ exitLong r st = true) ∧
      (exitLong r st = true →
        stepBar p st r = (initState, ⟨TradeType.close, st.sl, st.tp, st.tsl⟩))) ∧
    (st.position = Side.short →
      ((stepBar p st r).2.tradeType = TradeType.close ↔ exitShort r st = true) ∧
      (exitShort r st = true →
        stepBar p st r = (initState, ⟨TradeType.close, st.sl, st.tp, st.tsl⟩))) := by
  constructor
  · intro hpos
    refine ⟨?_, fun hex => stepBar_long_exit p st r hok hpos hex⟩
    cases hex : exitLong r st with
    | true => simp [stepBar_long_exit p st r hok hpos hex]
    | false =>
      simp only [Bool.false_eq_true, iff_false]
      cases hrev : (p.allowReversals && shortSignal p r) with
      | true => simp [stepBar_long_reverse p st r hok hpos hex hrev]
      | false => simp [stepBar_long_hold p st r hok hpos hex hrev]
  · intro hpos
    refine ⟨?_, fun hex => stepBar_short_exit p st r hok hpos hex⟩
    cases hex : exitShort r st with
    | true => simp [stepBar_short_exit p st r hok hpos hex]
    | false =>
      simp only [Bool.false_eq_true, iff_false]
      cases hrev : (p.allowReversals && longSignal p r) with
      | true => simp [stepBar_short_reverse p st r hok hpos hex hrev]
      | false => simp [stepBar_short_hold p st r hok hpos hex hrev]

/-- C1 witness: a concrete long position whose trailing stop is breached
(low 90 ≤ TSL 96) is stamped `CLOSE` with the pre-exit levels 95/110/96
recorded and the position cleared. -/
theorem claim_exit_priority_witness :
    rowOk rowExitW = true ∧ stLongW.position = Side.long ∧
    exitLong rowExitW stLongW = true ∧
    stepBar defaultParams stLongW rowExitW =
      (initState, ⟨TradeType.close, some 95, some 110, some 96⟩) :=
  ⟨by decide, rfl, by decide,
   ((claim_exit_priority defaultParams stLongW rowExitW (by decide)).1 rfl).2
     (by decide)⟩

/-- C2 counterexample: whenever the opposite-direction signal fires against
an open position, the EMA trend-flip exit — evaluated before entry /
reversal logic — necessarily also fires, so the bar is stamped `CLOSE`.
At this concrete short position with the long signal firing, the bar is
not stamped `HOLD` under `allow_reversals = false` and not stamped
`REVERSE_LONG` under `allow_reversals = true`, contradicting the claim in
both halves. -/
theorem claim_reversal_toggle_counterexample :
    stShortC2.position = Side.short ∧
    longSignal defaultParams rowC2 = true ∧
    longSignal paramsRev rowC2 = true ∧
    defaultParams.allowReversals = false ∧
    paramsRev.allowReversals = true ∧
    (stepBar defaultParams stShortC2 rowC2).2.tradeType = TradeType.close ∧
    (stepBar defaultParams stShortC2 rowC2).2.tradeType ≠ TradeType.hold ∧
    (stepBar defaultParams stShortC2 rowC2).1.position = Side.flat ∧
    (stepBar paramsRev stShortC2 rowC2).2.tradeType = TradeType.close ∧
    (stepBar paramsRev stShortC2 rowC2).2.tradeType ≠ TradeType.reverseLong ∧
    (stepBar paramsRev stShortC2 rowC2).1.position = Side.flat := by
  have h1 : longSignal defaultParams rowC2 = true := by
    norm_num [longSignal, rowC2, defaultParams]
  have h2 : longSignal paramsRev rowC2 = true := by
    norm_num [longSignal, rowC2, paramsRev, defaultParams]
  have e1 : stepBar defaultParams stShortC2 rowC2 =
      (initState, ⟨TradeType.close, some 105, some 90, some 104⟩) :=
    stepBar_short_exit defaultParams stShortC2 rowC2 (by decide) rfl
      (longSignal_exitShort defaultParams stShortC2 rowC2 h1)
  have e2 : stepBar paramsRev stShortC2 rowC2 =
      (initState, ⟨TradeType.close, some 105, some 90, some 104⟩) :=
    stepBar_short_exit paramsRev stShortC2 rowC2 (by decide) rfl
      (longSignal_exitShort paramsRev stShortC2 rowC2 h2)
  refine ⟨rfl, h1, h2, rfl, rfl, ?_, ?_, ?_, ?_, ?_, ?_⟩ <;>
    simp [e1, e2, initState]

/-- C2 amended: when the opposite-direction entry signal fires while a
position is open, the EMA trend-flip exit (which requires exactly the EMA
relationship the opposite signal demands and is evaluated first)
necessarily triggers, so — for every value of `allow_reversals` — the bar
is stamped `CLOSE` with the pre-exit levels recorded and the position
cleared to flat; the `REVERSE_LONG` / `REVERSE_SHORT` stampings are
unreachable on such bars. -/
theorem claim_reversal_toggle_amended (p : Params) (st : PosState) (r : Row)
    (hok : rowOk r = true) :
    (st.position = Side.short → longSignal p r = true →
      stepBar p st r = (initState, ⟨TradeType.close, st.sl, st.tp, st.tsl⟩)) ∧
    (st.position = Side.long → shortSignal p r = true →
      stepBar p st r = (initState, ⟨TradeType.close, st.sl, st.tp, st.tsl⟩)) := by
  refine ⟨fun hpos hsig => ?_, fun hpos hsig => ?_⟩
  · exact stepBar_short_exit p st r hok hpos (longSignal_exitShort p st r hsig)
  · exact stepBar_long_exit p st r hok hpos (shortSignal_exitLong p st r hsig)

/-- C2 amended witness: the concrete short position fed a long-signal bar,
with reversals enabled, is stamped `CLOSE` with pre-exit levels
105/90/104 and cleared. -/
theorem claim_reversal_toggle_amended_witness :
    stepBar paramsRev stShortC2 rowC2 =
      (initState, ⟨TradeType.close, some 105, some 90, some 104⟩) :=
  (claim_reversal_toggle_amended paramsRev stShortC2 rowC2 (by decide)).1 rfl
    (by norm_num [longSignal, rowC2, paramsRev, defaultParams])

/-- C3: across one processed bar on which an open long position stays open
(no exit, no reversal), the trailing-stop level never decreases; for an
open short position it never increases — and the ratcheted value is exactly
what the row records as its TSL output.  Chained over consecutive bars this
makes the recorded TSL non-decreasing (long) / non-increasing (short). -/
theorem claim_tsl_monotone (p : Params) (st : PosState) (r : Row) :
    (st.position = Side.long → (stepBar p st r).1.position = Side.long →
      ∀ t, st.tsl = some t → ∃ u, (stepBar p st r).1.tsl = some u ∧ t ≤ u ∧
        (stepBar p st r).2.tsl = some u) ∧
    (st.position = Side.short → (stepBar p st r).1.position = Side.short →
      ∀ t, st.tsl = some t → ∃ u, (stepBar p st r).1.tsl = some u ∧ u ≤ t ∧
        (stepBar p st r).2.tsl = some u) := by
  constructor
  · intro hpos hafter t ht
    cases hok : rowOk r with
    | false =>
      rw [stepBar_nan p st r hok]
      exact ⟨t, ht, le_refl t, ht⟩
    | true =>
      cases hex : exitLong r st with
      | true =>
        rw [stepBar_long_exit p st r hok hpos hex] at hafter
        simp [initState] at hafter
      | false =>
        cases hrev : (p.allowReversals && shortSignal p r) with
        | true =>
          rw [stepBar_long_reverse p st r hok hpos hex hrev] at hafter
          simp at hafter
        | false =>
          rw [stepBar_long_hold p st r hok hpos hex hrev]
          simp only [ratchetLong, ht]
          by_cases hc : t < r.close - effAtr (r.atr.getD 0) * p.atrMultSl
          · exact ⟨_, by simp [hc], le_of_lt hc, by simp [hc]⟩
          · exact ⟨t, by simp [hc], le_refl t, by simp [hc]⟩
  · intro hpos hafter t ht
    cases hok : rowOk r with
    | false =>
      rw [stepBar_nan p st r hok]
      exact ⟨t, ht, le_refl t, ht⟩
    | true =>
      cases hex : exitShort r st with
      | true =>
        rw [stepBar_short_exit p st r hok hpos hex] at hafter
        simp [initState] at hafter
      | false =>
        cases hrev : (p.allowReversals && longSignal p r) with
        | true =>
          rw [stepBar_short_reverse p st r hok hpos hex hrev] at hafter
          simp at hafter
        | false =>
          rw [stepBar_short_hold p st r hok hpos hex hrev]
          simp only [ratchetShort, ht]
          by_cases hc : r.close + effAtr (r.atr.getD 0) * p.atrMultSl < t
          · exact ⟨_, by simp [hc], le_of_lt hc, by simp [hc]⟩
          · exact ⟨t, by simp [hc], le_refl t, by simp [hc]⟩

/-- C3 witness: a short position with TSL 110 on a hold bar with candidate
level 99 + 2·2.5 = 104 ratchets its TSL down to 104 ≤ 110, and 104 is the
recorded output TSL. -/
theorem claim_tsl_monotone_witness :
    stShortC2.position = Side.short ∧
    (stepBar defaultParams stShortC2 rowTslW).1.position = Side.short ∧
    stShortC2.tsl = some 104 ∧
    ∃ u, (stepBar defaultParams stShortC2 rowTslW).1.tsl = some u ∧
      u ≤ 104 ∧ (stepBar defaultParams stShortC2 rowTslW).2.tsl = some u :=
  ⟨rfl, by decide, rfl,
   (claim_tsl_monotone defaultParams stShortC2 rowTslW).2 rfl (by decide) 104 rfl⟩

/-- C4: on a fresh entry (flat position, defined indicators, a signal
firing) the position opens with entry price = the bar's close, stop-loss =
entry ∓ ATR × stop-multiplier (2.5), take-profit = entry ± ATR ×
stop-multiplier × reward-multiple (2.5 × 1.2 = 3.0, the code's
`atr_mult_tp`), and trailing stop initialized to the stop-loss level. -/
theorem claim_entry_levels (st : PosState) (r : Row)
    (hok : rowOk r = true) (hflat : st.position = Side.flat) :
    (longSignal defaultParams r = true →
      stepBar defaultParams st r =
        (⟨Side.long, some r.close,
          some (r.close - effAtr (r.atr.getD 0) * (5/2)),
          some (r.close + effAtr (r.atr.getD 0) * ((5/2) * (6/5))),
          some (r.close - effAtr (r.atr.getD 0) * (5/2))⟩,
         ⟨TradeType.long,
          some (r.close - effAtr (r.atr.getD 0) * (5/2)),
          some (r.close + effAtr (r.atr.getD 0) * ((5/2) * (6/5))),
          some (r.close - effAtr (r.atr.getD 0) * (5/2))⟩)) ∧
    (shortSignal defaultParams r = true →
      stepBar defaultParams st r =
        (⟨Side.short, some r.close,
          some (r.close + effAtr (r.atr.getD 0) * (5/2)),
          some (r.close - effAtr (r.atr.getD 0) * ((5/2) * (6/5))),
          some (r.close + effAtr (r.atr.getD 0) * (5/2))⟩,
         ⟨TradeType.short,
          some (r.close + effAtr (r.atr.getD 0) * (5/2)),
          some (r.close - effAtr (r.atr.getD 0) * ((5/2) * (6/5))),
          some (r.close + effAtr (r.atr.getD 0) * (5/2))⟩)) := by
  constructor
  · intro hsig
    rw [stepBar_flat_long defaultParams st r hok hflat hsig]
    norm_num [defaultParams]
  · intro hsig
    rw [stepBar_flat_short defaultParams st r hok hflat
      (shortSignal_longSignal_false defaultParams r hsig) hsig]
    norm_num [defaultParams]

/-- C4 witness: from flat, the long-signal bar `rowC2` (close 100, ATR 2)
opens a long with entry 100, SL = 100 − 2·2.5 = 95, TP = 100 + 2·3 = 106,
TSL = SL = 95. -/
theorem claim_entry_levels_witness :
    rowOk rowC2 = true ∧ initState.position = Side.flat ∧
    longSignal defaultParams rowC2 = true ∧
    stepBar defaultParams initState rowC2 =
      (⟨Side.long, some 100, some 95, some 106, some 95⟩,
       ⟨TradeType.long, some 95, some 106, some 95⟩) :=
  ⟨by decide, rfl, by norm_num [longSignal, rowC2, defaultParams], by
    have h := (claim_entry_levels initState rowC2 (by decide) rfl).1
      (by norm_num [longSignal, rowC2, defaultParams])
    rw [h]; norm_num [rowC2, effAtr]⟩

/-- C9: when ATR evaluates to exactly zero on a bar, the small positive
epsilon 0.0001 is substituted before ATR is used as a stop/target
distance, so entries never produce zero-width stops: stop-loss,
take-profit and trailing-stop levels (and the trailing candidate
close ∓ ε × stop-multiplier) all differ from the entry price. -/
theorem claim_atr_epsilon (st : PosState) (r : Row)
    (hok : rowOk r = true) (hflat : st.position = Side.flat)
    (hatr : r.atr = some 0) :
    effAtr 0 = 1/10000 ∧ (0 : ℚ) < effAtr 0 ∧
    r.close - effAtr 0 * defaultParams.atrMultSl ≠ r.close ∧
    r.close + effAtr 0 * defaultParams.atrMultSl ≠ r.close ∧
    (longSignal defaultParams r = true →
      (stepBar defaultParams st r).2.sl ≠ some r.close ∧
      (stepBar defaultParams st r).2.tp ≠ some r.close ∧
      (stepBar defaultParams st r).2.tsl ≠ some r.close) ∧
    (shortSignal defaultParams r = true →
      (stepBar defaultParams st r).2.sl ≠ some r.close ∧
      (stepBar defaultParams st r).2.tp ≠ some r.close ∧
      (stepBar defaultParams st r).2.tsl ≠ some r.close) := by
  refine ⟨by norm_num [effAtr], by norm_num [effAtr], ?_, ?_, ?_, ?_⟩
  · norm_num [effAtr, defaultParams]
  · norm_num [effAtr, defaultParams]
  · intro hsig
    rw [stepBar_flat_long defaultParams st r hok hflat hsig]
    simp only [hatr, Option.getD_some]
    norm_num [effAtr, defaultParams]
  · intro hsig
    rw [stepBar_flat_short defaultParams st r hok hflat
      (shortSignal_longSignal_false defaultParams r hsig) hsig]
    simp only [hatr, Option.getD_some]
    norm_num [effAtr, defaultParams]

/-- C9 witness: `rowAtrZero` (ATR = 0, long signal firing, close 100)
opens a long whose SL, TP and TSL all differ from the entry price 100. -/
theorem claim_atr_epsilon_witness :
    rowOk rowAtrZero = true ∧ rowAtrZero.atr = some 0 ∧
    longSignal defaultParams rowAtrZero = true ∧
    (stepBar defaultParams initState rowAtrZero).2.sl ≠ some 100 ∧
    (stepBar defaultParams initState rowAtrZero).2.tp ≠ some 100 ∧
    (stepBar defaultParams initState rowAtrZero).2.tsl ≠ some 100 :=
  ⟨by decide, rfl, by norm_num [longSignal, rowAtrZero, defaultParams],
   ((claim_atr_epsilon initState rowAtrZero (by decide) rfl rfl).2.2.2.2.1
     (by norm_num [longSignal, rowAtrZero, defaultParams])).1,
   ((claim_atr_epsilon initState rowAtrZero (by decide) rfl rfl).2.2.2.2.1
     (by norm_num [longSignal, rowAtrZero, defaultParams])).2.1,
   ((claim_atr_epsilon initState rowAtrZero (by decide) rfl rfl).2.2.2.2.1
     (by norm_num [longSignal, rowAtrZero, defaultParams])).2.2⟩

/-- C10: for an empty input table `Strategy.run` returns immediately with
the decision columns appended and no rows (vacuously all-`HOLD`), raising
no error: the required-column check is skipped, so an empty table missing
a required field such as `volume` does not fail with a missing-column
error. -/
theorem claim_empty_table (p : Params) (ind : List Bar → Except String (List Row))
    (t : InputTable) (h : t.rows = []) :
    runStrategy p ind t = Except.ok [] := by
  simp [runStrategy, h]

/-- C10 witness: the empty table whose columns lack `volume` returns
`ok` with no rows and no missing-column error. -/
theorem claim_empty_table_witness :
    ¬ "volume" ∈ normCols emptyNoVol.cols ∧
    runStrategy defaultParams indNone emptyNoVol = Except.ok [] :=
  ⟨by decide, claim_empty_table defaultParams indNone emptyNoVol rfl⟩

/-- C5 counterexample: the claim quantifies over every input table, but the
empty-table early return precedes the required-column check, so the empty
table missing `volume` returns `ok` instead of a missing-column error. -/
theorem claim_schema_error_counterexample :
    ¬ "volume" ∈ normCols emptyNoVol.cols ∧ emptyNoVol.rows = [] ∧
    runStrategy defaultParams indNone emptyNoVol = Except.ok [] :=
  ⟨by decide, rfl, rfl⟩

/-- C5 amended: for every NONEMPTY input table in which a required field is
absent after column-name normalization, `Strategy.run` fails with the
missing-column `KeyError` naming the first missing required column — for
any indicator computation whatsoever, so no indicator work and no partial
output is produced. -/
theorem claim_schema_error_amended (p : Params)
    (ind : List Bar → Except String (List Row)) (t : InputTable)
    (hne : t.rows ≠ [])
    (hmiss : ∃ c ∈ requiredCols, ¬ c ∈ normCols t.cols) :
    ∃ c ∈ requiredCols, ¬ c ∈ normCols t.cols ∧
      runStrategy p ind t = Except.error ("Missing required column: " ++ c) := by
  have hfind : ∃ c, requiredCols.find?
      (fun c => !((normCols t.cols).contains c)) = some c := by
    rcases hmiss with ⟨c, hc, hnc⟩
    have hs : (requiredCols.find?
        (fun c => !((normCols t.cols).contains c))).isSome := by
      rw [List.find?_isSome]
      exact ⟨c, hc, by simpa using hnc⟩
    exact Option.isSome_iff_exists.mp hs
  rcases hfind with ⟨c, hc⟩
  have hmem := List.mem_of_find?_eq_some hc
  have hp := List.find?_some hc
  have hnotin : ¬ c ∈ normCols t.cols := by
    simp only [Bool.not_eq_true'] at hp
    simpa using hp
  have hrne : t.rows.isEmpty = false := by
    cases h : t.rows with
    | nil => exact absurd h hne
    | cons a l => rfl
  have hcheck : checkCols (normCols t.cols) =
      Except.error ("Missing required column: " ++ c) := by
    unfold checkCols
    rw [hc]
  refine ⟨c, hmem, hnotin, ?_⟩
  simp [runStrategy, hrne, hcheck]

/-- C5 amended witness: the one-row table with columns
Open/high/low/close fails with the missing-column error for `volume`. -/
theorem claim_schema_error_amended_witness :
    ∃ c ∈ requiredCols, ¬ c ∈ normCols tMissW.cols ∧
      runStrategy defaultParams indNone tMissW =
        Except.error ("Missing required column: " ++ c) :=
  claim_schema_error_amended defaultParams indNone tMissW (by decide) (by decide)

/-- C6: for every nonempty input table passing the column check whose
cleaned series (rows surviving `dropna`) has fewer than 200 bars, no
indicator computation is attempted (the result is the same for every
indicator function `ind`) and the engine returns, without error, one
output row per cleaned row, each stamped `HOLD` with undefined levels. -/
theorem claim_warmup_short_series (p : Params)
    (ind : List Bar → Except String (List Row)) (t : InputTable)
    (hne : t.rows ≠ [])
    (hcols : checkCols (normCols t.cols) = Except.ok ())
    (hlen : (t.rows.filter hasRequired).length < 200) :
    ∃ out, runStrategy p ind t = Except.ok out ∧
      out.length = (t.rows.filter hasRequired).length ∧
      ∀ o ∈ out, o.tradeType = TradeType.hold ∧ o.sl = none ∧ o.tp = none ∧
        o.tsl = none := by
  have hrne : t.rows.isEmpty = false := by
    cases h : t.rows with
    | nil => exact absurd h hne
    | cons a l => rfl
  refine ⟨(t.rows.filter hasRequired).map (fun _ => holdOut), ?_, by simp, ?_⟩
  · simp [runStrategy, hrne, hcols, hlen]
  · intro o ho
    rcases List.mem_map.mp ho with ⟨b, _, rfl⟩
    exact ⟨rfl, rfl, rfl, rfl⟩

set_option maxRecDepth 4000 in
/-- C6 witness: a table of exactly 199 cleaned bars yields 199 `HOLD`
rows with undefined levels, and no error. -/
theorem claim_warmup_short_series_witness :
    (t199.rows.filter hasRequired).length = 199 ∧
    ∃ out, runStrategy defaultParams indNone t199 = Except.ok out ∧
      out.length = (t199.rows.filter hasRequired).length ∧
      ∀ o ∈ out, o.tradeType = TradeType.hold ∧ o.sl = none ∧ o.tp = none ∧
        o.tsl = none :=
  ⟨by decide, claim_warmup_short_series defaultParams indNone t199 (by decide)
    (by rfl) (by decide)⟩

/-- C7: if the indicator computation fails (raises), the engine catches it
and returns a complete all-`HOLD`, NaN-level table; and in every case the
only error `Strategy.run` can return is the missing-required-column schema
error. -/
theorem claim_indicator_failure (p : Params)
    (ind : List Bar → Except String (List Row)) (t : InputTable) :
    ((∃ e, ind ((t.rows.filter hasRequired).map toBar) = Except.error e) →
      t.rows ≠ [] → checkCols (normCols t.cols) = Except.ok () →
      ∃ out, runStrategy p ind t = Except.ok out ∧
        out.length = (t.rows.filter hasRequired).length ∧
        ∀ o ∈ out, o.tradeType = TradeType.hold ∧ o.sl = none ∧ o.tp = none ∧
          o.tsl = none) ∧
    (∀ msg, runStrategy p ind t = Except.error msg →
      ∃ c ∈ requiredCols, ¬ c ∈ normCols t.cols ∧
        msg = "Missing required column: " ++ c) := by
  constructor
  · rintro ⟨e, he⟩ hne hcols
    have hrne : t.rows.isEmpty = false := by
      cases h : t.rows with
      | nil => exact absurd h hne
      | cons a l => rfl
    by_cases hlen : (t.rows.filter hasRequired).length < 200
    · refine ⟨(t.rows.filter hasRequired).map (fun _ => holdOut), ?_, by simp,
        fun o ho => ?_⟩
      · simp [runStrategy, hrne, hcols, hlen]
      · rcases List.mem_map.mp ho with ⟨b, _, rfl⟩
        exact ⟨rfl, rfl, rfl, rfl⟩
    · refine ⟨(t.rows.filter hasRequired).map (fun _ => holdOut), ?_, by simp,
        fun o ho => ?_⟩
      · simp [runStrategy, hrne, hcols, hlen, he]
      · rcases List.mem_map.mp ho with ⟨b, _, rfl⟩
        exact ⟨rfl, rfl, rfl, rfl⟩
  · intro msg hrun
    by_cases hrne : t.rows.isEmpty
    · simp [runStrategy, hrne] at hrun
    · cases hcheck : checkCols (normCols t.cols) with
      | error e =>
        have hem : e = msg := by
          simp [runStrategy, hrne, hcheck] at hrun
          exact hrun
        rcases checkCols_error_spec _ _ hcheck with ⟨c, hc, hn, hm⟩
        exact ⟨c, hc, hn, by rw [← hem, hm]⟩
      | ok u =>
        by_cases hlen : (t.rows.filter hasRequired).length < 200
        · simp [runStrategy, hrne, hcheck, hlen] at hrun
        · cases hind : ind ((t.rows.filter hasRequired).map toBar) with
          | error e => simp [runStrategy, hrne, hcheck, hlen, hind] at hrun
          | ok rows => simp [runStrategy, hrne, hcheck, hlen, hind] at hrun

set_option maxRecDepth 4000 in
/-- C7 witness: on a table of exactly 200 cleaned bars whose indicator
computation fails with an exception, the engine returns a complete
all-`HOLD` output with one row per cleaned bar (200 of them). -/
theorem claim_indicator_failure_witness :
    (t200.rows.filter hasRequired).length = 200 ∧
    ∃ out, runStrategy defaultParams indBoom t200 = Except.ok out ∧
      out.length = (t200.rows.filter hasRequired).length ∧
      ∀ o ∈ out, o.tradeType = TradeType.hold ∧ o.sl = none ∧ o.tp = none ∧
        o.tsl = none :=
  ⟨by decide,
   (claim_indicator_failure defaultParams indBoom t200).1 ⟨"boom", rfl⟩
     (by decide) (by rfl)⟩

/-- C8: a single `stepBar` preserves the invariant that SL/TP/TSL levels
are defined exactly when the side is not flat; when the bar is not a
`CLOSE` bar, the recorded SL/TP/TSL outputs equal the position state after
this bar's processing, and on a `CLOSE` bar the outputs are the pre-exit
levels while the post-bar state is flat with undefined levels. -/
theorem claim_level_recording (p : Params) (st : PosState) (r : Row)
    (hinv : stInv st) :
    stInv (stepBar p st r).1 ∧
    ((stepBar p st r).2.tradeType ≠ TradeType.close →
      (stepBar p st r).2.sl = (stepBar p st r).1.sl ∧
      (stepBar p st r).2.tp = (stepBar p st r).1.tp ∧
      (stepBar p st r).2.tsl = (stepBar p st r).1.tsl) ∧
    ((stepBar p st r).2.tradeType = TradeType.close →
      (stepBar p st r).1 = initState ∧
      (stepBar p st r).2.sl = st.sl ∧ (stepBar p st r).2.tp = st.tp ∧
      (stepBar p st r).2.tsl = st.tsl) := by
  cases hok : rowOk r with
  | false =>
    rw [stepBar_nan p st r hok]
    exact ⟨hinv, fun _ => ⟨rfl, rfl, rfl⟩, fun h => by simp at h⟩
  | true =>
    cases hpos : st.position with
    | flat =>
      cases hsig : longSignal p r with
      | true =>
        rw [stepBar_flat_long p st r hok hpos hsig]
        refine ⟨⟨fun h => by simp at h, fun _ => by simp⟩,
          fun _ => ⟨rfl, rfl, rfl⟩, fun h => by simp at h⟩
      | false =>
        cases hsg2 : shortSignal p r with
        | true =>
          rw [stepBar_flat_short p st r hok hpos hsig hsg2]
          refine ⟨⟨fun h => by simp at h, fun _ => by simp⟩,
            fun _ => ⟨rfl, rfl, rfl⟩, fun h => by simp at h⟩
        | false =>
          rw [stepBar_flat_hold p st r hok hpos hsig hsg2]
          exact ⟨hinv, fun _ => ⟨rfl, rfl, rfl⟩, fun h => by simp at h⟩
    | long =>
      cases hex : exitLong r st with
      | true =>
        rw [stepBar_long_exit p st r hok hpos hex]
        exact ⟨⟨fun _ => ⟨rfl, rfl, rfl⟩, fun h => absurd rfl h⟩,
          fun h => absurd rfl h, fun _ => ⟨rfl, rfl, rfl, rfl⟩⟩
      | false =>
        cases hrev : (p.allowReversals && shortSignal p r) with
        | true =>
          rw [stepBar_long_reverse p st r hok hpos hex hrev]
          refine ⟨⟨fun h => by simp at h, fun _ => by simp⟩,
            fun _ => ⟨rfl, rfl, rfl⟩, fun h => by simp at h⟩
        | false =>
          rw [stepBar_long_hold p st r hok hpos hex hrev]
          have hn := hinv.2 (by simp [hpos])
          refine ⟨⟨fun h => by simp [hpos] at h,
            fun _ => ⟨hn.1, hn.2.1, ratchetLong_ne_none st.tsl _⟩⟩,
            fun _ => ⟨rfl, rfl, rfl⟩, fun h => by simp at h⟩
    | short =>
      cases hex : exitShort r st with
      | true =>
        rw [stepBar_short_exit p st r hok hpos hex]
        exact ⟨⟨fun _ => ⟨rfl, rfl, rfl⟩, fun h => absurd rfl h⟩,
          fun h => absurd rfl h, fun _ => ⟨rfl, rfl, rfl, rfl⟩⟩
      | false =>
        cases hrev : (p.allowReversals && longSignal p r) with
        | true =>
          rw [stepBar_short_reverse p st r hok hpos hex hrev]
          refine ⟨⟨fun h => by simp at h, fun _ => by simp⟩,
            fun _ => ⟨rfl, rfl, rfl⟩, fun h => by simp at h⟩
        | false =>
          rw [stepBar_short_hold p st r hok hpos hex hrev]
          have hn := hinv.2 (by simp [hpos])
          refine ⟨⟨fun h => by simp [hpos] at h,
            fun _ => ⟨hn.1, hn.2.1, ratchetShort_ne_none st.tsl _⟩⟩,
            fun _ => ⟨rfl, rfl, rfl⟩, fun h => by simp at h⟩

/-- C8 witness: for the concrete long position and trailing-stop-breach
bar, the invariant holds after the step, and the `CLOSE` row records the
pre-exit levels while the post-bar state is flat with undefined levels. -/
theorem claim_level_recording_witness :
    stInv (stepBar defaultParams stLongW rowExitW).1 ∧
    ((stepBar defaultParams stLongW rowExitW).2.tradeType ≠ TradeType.close →
      (stepBar defaultParams stLongW rowExitW).2.sl =
        (stepBar defaultParams stLongW rowExitW).1.sl ∧
      (stepBar defaultParams stLongW rowExitW).2.tp =
        (stepBar defaultParams stLongW rowExitW).1.tp ∧
      (stepBar defaultParams stLongW rowExitW).2.tsl =
        (stepBar defaultParams stLongW rowExitW).1.tsl) ∧
    ((stepBar defaultParams stLongW rowExitW).2.tradeType = TradeType.close →
      (stepBar defaultParams stLongW rowExitW).1 = initState ∧
      (stepBar defaultParams stLongW rowExitW).2.sl = stLongW.sl ∧
      (stepBar defaultParams stLongW rowExitW).2.tp = stLongW.tp ∧
      (stepBar defaultParams stLongW rowExitW).2.tsl = stLongW.tsl) :=
  claim_level_recording defaultParams stLongW rowExitW
    ⟨fun h => by simp [stLongW] at h, fun _ => by simp [stLongW]⟩

end AlphaStrat
